import Mathlib

/-!
Shallow embedding of `src/FileTypeModule.cpp` (the FileTypeSigModule plugin
of the Sleuth Kit framework) and verification of its specification.

The module is integration glue: all external calls (the libmagic matcher,
the Poco file system probe, the host framework's file read / blackboard
write, which may throw) are modelled as explicit environment data, and the
module's observable actions (error log lines, read requests, matcher
invocations, attributes posted to the blackboard) are collected in an
effects record, so every theorem about `run` speaks about exactly what the
C++ function does between its entry and its return.
-/

namespace FileTypeSig

/-- Status codes of the host pipeline plugin ABI (`TskModule::Status`).
The framework header is external to this repository; besides `OK` and
`FAIL` — the only two values this module ever returns — the host ABI also
carries a stop code, included here so that the binary-outcome property of
the spec is not vacuously true by type. -/
inductive Status where
  | OK
  | FAIL
  | STOP
deriving DecidableEq

/-- `MODULE_NAME` (FileTypeModule.cpp line 39). -/
def MODULE_NAME : String := "FileTypeSigModule"

/-- `MODULE_DESCRIPTION` (line 40). -/
def MODULE_DESCRIPTION : String :=
  "Determines file type based on signature using libmagic"

/-- `MODULE_VERSION` (line 41). -/
def MODULE_VERSION : String := "1.0.0"

/-- `FILE_BUFFER_SIZE` (line 43). -/
def FILE_BUFFER_SIZE : Nat := 1024

/-- A `magic_t` handle: `none` is NULL, `some i` an opened handle id. -/
abbrev MagicT := Option Nat

/-- The module-level static state: the single `magicHandle` (line 45). -/
structure ModState where
  magicHandle : MagicT
deriving DecidableEq

/-- Result of a call into the host framework that may throw: a value, a
`TskException`, or another `std::exception` (both caught in `run`). -/
inductive ExtResult (α : Type) where
  | ok (a : α)
  | tskExn (msg : String)
  | stdExn (msg : String)
deriving DecidableEq

/-- `name` entry point (line 55). -/
def moduleName : String := MODULE_NAME

/-- `description` entry point (line 65). -/
def moduleDescription : String := MODULE_DESCRIPTION

/-- `version` entry point (line 75). -/
def moduleVersion : String := MODULE_VERSION

/-! ### The UTF-8 sanitizer

`TskUtilities::cleanUTF8` is framework code not contained in this
repository.  Modelled from the spec: "sanitize the returned label to valid
text" / the value is "sanitized to valid UTF-8 text"; the code comment at
the call site says invalid UTF-8 data has been seen and is cleaned up
in place.  The model scans the byte string greedily: a byte sequence that
begins a well-formed UTF-8 encoding (RFC 3629) is kept, any other byte is
replaced in place by `^` (0x5E), so the result has the same length and is
valid UTF-8. -/

/-- A UTF-8 continuation byte. -/
abbrev isCont (b : Nat) : Prop := 0x80 ≤ b ∧ b ≤ 0xBF

/-- Length of the well-formed UTF-8 sequence starting at the head of the
byte list, if any (RFC 3629 table).  Bytes past the end of the list are
read as `0xFF`, which satisfies no continuation or range condition, so a
truncated sequence is rejected. -/
def utf8SeqLen : List Nat → Option Nat
  | [] => none
  | b :: rest =>
    if b ≤ 0x7F then some 1
    else if (0xC2 ≤ b ∧ b ≤ 0xDF) ∧ isCont (rest.getD 0 0xFF) then some 2
    else if b = 0xE0 ∧ (0xA0 ≤ rest.getD 0 0xFF ∧ rest.getD 0 0xFF ≤ 0xBF) ∧
        isCont (rest.getD 1 0xFF) then some 3
    else if (0xE1 ≤ b ∧ b ≤ 0xEC) ∧ isCont (rest.getD 0 0xFF) ∧
        isCont (rest.getD 1 0xFF) then some 3
    else if b = 0xED ∧ (0x80 ≤ rest.getD 0 0xFF ∧ rest.getD 0 0xFF ≤ 0x9F) ∧
        isCont (rest.getD 1 0xFF) then some 3
    else if (0xEE ≤ b ∧ b ≤ 0xEF) ∧ isCont (rest.getD 0 0xFF) ∧
        isCont (rest.getD 1 0xFF) then some 3
    else if b = 0xF0 ∧ (0x90 ≤ rest.getD 0 0xFF ∧ rest.getD 0 0xFF ≤ 0xBF) ∧
        isCont (rest.getD 1 0xFF) ∧ isCont (rest.getD 2 0xFF) then some 4
    else if (0xF1 ≤ b ∧ b ≤ 0xF3) ∧ isCont (rest.getD 0 0xFF) ∧
        isCont (rest.getD 1 0xFF) ∧ isCont (rest.getD 2 0xFF) then some 4
    else if b = 0xF4 ∧ (0x80 ≤ rest.getD 0 0xFF ∧ rest.getD 0 0xFF ≤ 0x8F) ∧
        isCont (rest.getD 1 0xFF) ∧ isCont (rest.getD 2 0xFF) then some 4
    else none

/-- Modelled from the spec: `TskUtilities::cleanUTF8` (framework code not
contained in this repository).  The spec says the matcher's label is
"sanitized to valid UTF-8 text" in place; the comment at the call site says
invalid UTF-8 data has been seen and is cleaned up.  The model scans the
byte string greedily: a well-formed UTF-8 sequence is kept, any other byte
is replaced in place by `^` (0x5E = 94), so the length is unchanged. -/
def cleanGo : List Nat → Nat → List Nat
  | [], _ => []
  | b :: rest, Nat.succ k => b :: cleanGo rest k
  | b :: rest, 0 =>
    match utf8SeqLen (b :: rest) with
    | some n => b :: cleanGo rest (n - 1)
    | none => 94 :: cleanGo rest 0

/-- The sanitizer itself: scan from the start of a sequence. -/
def cleanUTF8 (l : List Nat) : List Nat := cleanGo l 0

def validGo : List Nat → Nat → Bool
  | [], k => decide (k = 0)
  | _ :: rest, Nat.succ k => validGo rest k
  | b :: rest, 0 =>
    match utf8SeqLen (b :: rest) with
    | some n => validGo rest (n - 1)
    | none => false

/-- RFC 3629 validity of a whole byte string: it is a concatenation of
well-formed UTF-8 sequences. -/
def validUTF8 (l : List Nat) : Bool := validGo l 0

/-! ### The module embedding -/

/-- The blackboard attribute type used by the module (a value of the
framework's attribute-type enum). -/
inductive TskAttrType where
  | TSK_FILE_TYPE_SIG
deriving DecidableEq

/-- A `TskBlackboardAttribute` as constructed at line 156: attribute type,
module name, context string, and the byte content of the value C string. -/
structure TskBlackboardAttribute where
  attrType : TskAttrType
  moduleName : String
  context : String
  valueBytes : List Nat
deriving DecidableEq

/-- Environment of one `initialize` call: the results of the external
calls it makes (`magic_open`, `GetSystemProperty(MODULE_DIR)`,
`Poco::Path::separator`, `Poco::File::exists`, `magic_load`,
`magic_error`). -/
structure InitEnv where
  magicOpenResult : MagicT
  moduleDir : String
  sep : String
  fileExists : String → Bool
  magicLoadResult : String → Int
  magicErrorMsg : String

/-- The magic database path built at line 89:
`MODULE_DIR + sep + "FileTypeSigModule" + sep + "magic.mgc"`. -/
def magicFilePath (env : InitEnv) : String :=
  env.moduleDir ++ env.sep ++ MODULE_NAME ++ env.sep ++ "magic.mgc"

structure InitResult where
  status : Status
  state : ModState
  logs : List String
deriving DecidableEq

/-- Embeds `initialize` (lines 85-107): `magic_open` is called first and
its result assigned to the static handle; then the database path is
probed with `Poco::File::exists`; then `magic_load` is run on it, with a
nonzero return meaning failure. -/
def moduleInit (env : InitEnv) (s : ModState) : InitResult :=
  let s1 : ModState := { s with magicHandle := env.magicOpenResult }
  let path := magicFilePath env
  if env.fileExists path = false then
    { status := .FAIL, state := s1,
      logs := ["FileTypeSigModule: Magic file not found: " ++ path] }
  else if env.magicLoadResult path ≠ 0 then
    { status := .FAIL, state := s1,
      logs := ["FileTypeSigModule: Error loading magic file: "
        ++ env.magicErrorMsg ++ env.moduleDir] }
  else { status := .OK, state := s1, logs := [] }

/-- The per-file host interface used by `run`: `getSize()`, `read` (fills
the buffer with some bytes and returns a signed count, or throws), and
`addGenInfoAttribute` (returns or throws). -/
structure TskFileData where
  size : Nat
  readResult : ExtResult (Int × List Nat)
  addAttrResult : ExtResult Unit

/-- The process environment of `run`: the matcher as a function of the
bytes passed to `magic_buffer` (`none` models a NULL return), and
`magic_error`. -/
structure RunEnv where
  magicBuffer : List Nat → Option (List Nat)
  magicErrorMsg : String

/-- The observable actions of one `run` call: error log lines, byte counts
requested from `read`, `(buffer bytes, length)` of each `magic_buffer`
call, and attributes posted to the blackboard. -/
structure RunEffects where
  logs : List String
  readRequests : List Nat
  magicCalls : List (List Nat × Int)
  attrsAdded : List TskBlackboardAttribute
deriving DecidableEq

def noEffects : RunEffects := ⟨[], [], [], []⟩

structure RunResult where
  status : Status
  state : ModState
  effects : RunEffects
deriving DecidableEq

/-- Embeds `run` (lines 116-175).  `pFile = none` models a NULL `TskFile`
pointer.  The buffer passed to `magic_buffer` holds the first `readLen`
bytes the read placed there; the label is truncated by `strncpy` into a
1024-byte buffer whose last byte is NUL (lines 150-153) and sanitized by
`TskUtilities::cleanUTF8` before being attached (line 156-157). -/
def run (env : RunEnv) (s : ModState) (pFile : Option TskFileData) :
    RunResult :=
  match pFile with
  | none =>
    ⟨.FAIL, s, { noEffects with
      logs := ["FileTypeSigModule: Passed NULL file pointer."] }⟩
  | some f =>
    if f.size = 0 then ⟨.OK, s, noEffects⟩
    else
      match f.readResult with
      | .tskExn m =>
        ⟨.FAIL, s, { noEffects with
          logs := ["FileTypeModule: Caught framework exception: " ++ m],
          readRequests := [FILE_BUFFER_SIZE] }⟩
      | .stdExn m =>
        ⟨.FAIL, s, { noEffects with
          logs := ["FileTypeModule: Caught exception: " ++ m],
          readRequests := [FILE_BUFFER_SIZE] }⟩
      | .ok (readLen, data) =>
        if readLen ≤ 0 then
          ⟨.FAIL, s, { noEffects with
            logs := ["FileTypeSigModule: Error reading file contents"],
            readRequests := [FILE_BUFFER_SIZE] }⟩
        else
          let buffer := data.take readLen.toNat
          match env.magicBuffer buffer with
          | none =>
            ⟨.FAIL, s, { noEffects with
              logs := ["FileTypeSigModule: Error getting file type: "
                ++ env.magicErrorMsg],
              readRequests := [FILE_BUFFER_SIZE],
              magicCalls := [(buffer, readLen)] }⟩
          | some label =>
            let cleanType := cleanUTF8 (label.take 1023)
            let attr : TskBlackboardAttribute :=
              ⟨.TSK_FILE_TYPE_SIG, MODULE_NAME, "", cleanType⟩
            match f.addAttrResult with
            | .ok _ =>
              ⟨.OK, s,
                { logs := [],
                  readRequests := [FILE_BUFFER_SIZE],
                  magicCalls := [(buffer, readLen)],
                  attrsAdded := [attr] }⟩
            | .tskExn m =>
              ⟨.FAIL, s, { noEffects with
                logs := ["FileTypeModule: Caught framework exception: " ++ m],
                readRequests := [FILE_BUFFER_SIZE],
                magicCalls := [(buffer, readLen)] }⟩
            | .stdExn m =>
              ⟨.FAIL, s, { noEffects with
                logs := ["FileTypeModule: Caught exception: " ++ m],
                readRequests := [FILE_BUFFER_SIZE],
                magicCalls := [(buffer, readLen)] }⟩

/-- Embeds `finalize` (lines 177-180): returns OK, touches nothing. -/
def finalize (s : ModState) : Status × ModState := (.OK, s)

/-- The failure-path condition of `run` for a non-empty file: the read
throws, the read count is non-positive, the matcher returns NULL, or the
blackboard write throws. -/
def failurePath (env : RunEnv) (f : TskFileData) : Bool :=
  match f.readResult with
  | .tskExn _ => true
  | .stdExn _ => true
  | .ok (readLen, data) =>
    if readLen ≤ 0 then true
    else
      match env.magicBuffer (data.take readLen.toNat) with
      | none => true
      | some _ =>
        match f.addAttrResult with
        | .ok _ => false
        | .tskExn _ => true
        | .stdExn _ => true

/-! ### Concrete instances for evaluating the embedding -/

/-- A deterministic matcher: NULL on an empty buffer or one starting with
byte 1, otherwise the label `P`, `0xC8`, `G` (its middle byte is invalid
UTF-8, so sanitizing visibly rewrites it). -/
def testMagic (bs : List Nat) : Option (List Nat) :=
  if bs = [] then none
  else if bs.getD 0 0 = 1 then none
  else some [80, 200, 71]

def testEnv : RunEnv := ⟨testMagic, "test magic error"⟩

def testState : ModState := ⟨some 1⟩

/-- A zero-length file. -/
def fileZero : TskFileData := ⟨0, .ok (0, []), .ok ()⟩

/-- A 3-byte file whose read and blackboard write succeed. -/
def fileGood : TskFileData := ⟨3, .ok (3, [37, 80, 68]), .ok ()⟩

/-- A non-empty file on which `testMagic` returns NULL. -/
def fileMagicNull : TskFileData := ⟨2, .ok (2, [1, 2]), .ok ()⟩

/-- An `initialize` environment whose database file is missing. -/
def initEnvMissing : InitEnv :=
  ⟨some 1, "mod", "/", fun _ => false, fun _ => 0, "err"⟩

/-- The attribute `run` posts for `fileGood` under `testEnv`. -/
def attrGood : TskBlackboardAttribute :=
  ⟨.TSK_FILE_TYPE_SIG, MODULE_NAME, "", cleanUTF8 ([80, 200, 71].take 1023)⟩

/-! ### Proofs about the sanitizer -/

/-- A byte condition bounded by `0xBF` can only hold for a byte really
present in the list, since the out-of-range default is `0xFF`. -/
theorem getD_lt_length {rest : List Nat} {i : Nat}
    (h : rest.getD i 0xFF ≤ 0xBF) : i < rest.length := by
  by_contra hc
  push_neg at hc
  rw [List.getD_eq_default _ _ hc] at h
  omega

theorem utf8SeqLen_pos {l : List Nat} {n : Nat} (h : utf8SeqLen l = some n) :
    0 < n ∧ n ≤ l.length := by
  match l with
  | [] => simp [utf8SeqLen] at h
  | b :: rest =>
    simp only [utf8SeqLen] at h
    split_ifs at h with h1 h2 h3 h4 h5 h6 h7 h8 h9 <;>
      injection h with h <;> subst h <;> simp only [List.length_cons]
    · omega
    · have := getD_lt_length h2.2.2; omega
    · have := getD_lt_length h3.2.2.2; omega
    · have := getD_lt_length h4.2.2.2; omega
    · have := getD_lt_length h5.2.2.2; omega
    · have := getD_lt_length h6.2.2.2; omega
    · have := getD_lt_length h7.2.2.2.2; omega
    · have := getD_lt_length h8.2.2.2.2; omega
    · have := getD_lt_length h9.2.2.2.2; omega

/-- A one-byte sequence is recognised independently of the tail. -/
theorem utf8SeqLen_one {a : Nat} {Z Y : List Nat}
    (h : utf8SeqLen (a :: Z) = some 1) : utf8SeqLen (a :: Y) = some 1 := by
  simp only [utf8SeqLen] at h ⊢
  split_ifs at h with h1 h2 h3 h4 h5 h6 h7 h8 h9 <;> injection h with h <;>
    first
    | exact absurd h (by omega)
    | rw [if_pos h1]

/-- A two-byte sequence is recognised independently of the tail. -/
theorem utf8SeqLen_two {a b : Nat} {Z Y : List Nat}
    (h : utf8SeqLen (a :: b :: Z) = some 2) :
    utf8SeqLen (a :: b :: Y) = some 2 := by
  simp only [utf8SeqLen, List.getD_cons_zero, List.getD_cons_succ] at h ⊢
  split_ifs at h with h1 h2 h3 h4 h5 h6 h7 h8 h9 <;> injection h with h <;>
    first
    | exact absurd h (by omega)
    | rw [if_neg h1, if_pos h2]

/-- A three-byte sequence is recognised independently of the tail. -/
theorem utf8SeqLen_three {a b c : Nat} {Z Y : List Nat}
    (h : utf8SeqLen (a :: b :: c :: Z) = some 3) :
    utf8SeqLen (a :: b :: c :: Y) = some 3 := by
  simp only [utf8SeqLen, List.getD_cons_zero, List.getD_cons_succ] at h ⊢
  split_ifs at h with h1 h2 h3 h4 h5 h6 h7 h8 h9 <;> injection h with h <;>
    first
    | exact absurd h (by omega)
    | rw [if_neg h1, if_neg h2, if_pos h3]
    | rw [if_neg h1, if_neg h2, if_neg h3, if_pos h4]
    | rw [if_neg h1, if_neg h2, if_neg h3, if_neg h4, if_pos h5]
    | rw [if_neg h1, if_neg h2, if_neg h3, if_neg h4, if_neg h5, if_pos h6]

/-- A four-byte sequence is recognised independently of the tail. -/
theorem utf8SeqLen_four {a b c d : Nat} {Z Y : List Nat}
    (h : utf8SeqLen (a :: b :: c :: d :: Z) = some 4) :
    utf8SeqLen (a :: b :: c :: d :: Y) = some 4 := by
  simp only [utf8SeqLen, List.getD_cons_zero, List.getD_cons_succ] at h ⊢
  split_ifs at h with h1 h2 h3 h4 h5 h6 h7 h8 h9 <;> injection h with h <;>
    first
    | exact absurd h (by omega)
    | rw [if_neg h1, if_neg h2, if_neg h3, if_neg h4, if_neg h5, if_neg h6,
        if_pos h7]
    | rw [if_neg h1, if_neg h2, if_neg h3, if_neg h4, if_neg h5, if_neg h6,
        if_neg h7, if_pos h8]
    | rw [if_neg h1, if_neg h2, if_neg h3, if_neg h4, if_neg h5, if_neg h6,
        if_neg h7, if_neg h8, if_pos h9]


/-- Sanitizing never changes the length of the byte string. -/
theorem cleanGo_length : ∀ (l : List Nat) (k : Nat),
    (cleanGo l k).length = l.length
  | [], _ => by simp [cleanGo]
  | b :: rest, Nat.succ k => by
    simp only [cleanGo, List.length_cons, cleanGo_length rest k]
  | b :: rest, 0 => by
    unfold cleanGo
    split <;> simp only [List.length_cons, cleanGo_length rest]

theorem cleanUTF8_length (l : List Nat) : (cleanUTF8 l).length = l.length :=
  cleanGo_length l 0

/-- Sanitizing introduces no NUL byte: the replacement byte is `^`, and
kept bytes come from the input. -/
theorem cleanGo_not_mem_zero : ∀ (l : List Nat) (k : Nat),
    0 ∉ l → 0 ∉ cleanGo l k
  | [], _, _ => by simp [cleanGo]
  | b :: rest, Nat.succ k, h => by
    simp only [cleanGo, List.mem_cons, not_or]
    simp only [List.mem_cons, not_or] at h
    exact ⟨h.1, fun hm => cleanGo_not_mem_zero rest k h.2 hm⟩
  | b :: rest, 0, h => by
    simp only [List.mem_cons, not_or] at h
    unfold cleanGo
    split
    · simp only [List.mem_cons, not_or]
      exact ⟨h.1, fun hm => cleanGo_not_mem_zero rest _ h.2 hm⟩
    · simp only [List.mem_cons, not_or]
      exact ⟨by decide, fun hm => cleanGo_not_mem_zero rest _ h.2 hm⟩

theorem utf8SeqLen_le_four {l : List Nat} {n : Nat}
    (h : utf8SeqLen l = some n) : n ≤ 4 := by
  match l with
  | [] => simp [utf8SeqLen] at h
  | b :: rest =>
    simp only [utf8SeqLen] at h
    split_ifs at h <;> injection h with h <;> omega

/-- The output of the sanitizer is valid UTF-8 (main invariant; the
counter argument tracks how many bytes of a recognised sequence are still
being copied). -/
theorem validGo_cleanGo :
    ∀ (N : Nat) (l : List Nat), l.length ≤ N →
      ∀ k : Nat, k ≤ l.length → validGo (cleanGo l k) k = true := by
  intro N
  induction N with
  | zero =>
    intro l hl k hk
    have hnil : l = [] := List.length_eq_zero.mp (Nat.le_zero.mp hl)
    subst hnil
    have hz : k = 0 := Nat.le_zero.mp hk
    subst hz
    rfl
  | succ N ih =>
    intro l hl k hk
    cases l with
    | nil =>
      have hz : k = 0 := Nat.le_zero.mp (le_of_le_of_eq hk (by simp))
      subst hz
      rfl
    | cons b rest =>
      cases k with
      | succ k =>
        have h1 : cleanGo (b :: rest) (k + 1) = b :: cleanGo rest k := rfl
        have h2 : validGo (b :: cleanGo rest k) (k + 1)
            = validGo (cleanGo rest k) k := rfl
        rw [h1, h2]
        simp only [List.length_cons] at hl hk
        exact ih rest (by omega) k (by omega)
      | zero =>
        cases hseq : utf8SeqLen (b :: rest) with
        | none =>
          have h1 : cleanGo (b :: rest) 0 = 94 :: cleanGo rest 0 := by
            simp only [cleanGo]; rw [hseq]; try rfl
          have h2 : utf8SeqLen (94 :: cleanGo rest 0) = some 1 := by
            simp [utf8SeqLen]
          have h3 : validGo (94 :: cleanGo rest 0) 0
              = validGo (cleanGo rest 0) 0 := by
            simp only [validGo]; rw [h2]; try rfl
          rw [h1, h3]
          simp only [List.length_cons] at hl
          exact ih rest (by omega) 0 (Nat.zero_le _)
        | some n =>
          obtain ⟨hn1, hn2⟩ := utf8SeqLen_pos hseq
          have hn4 := utf8SeqLen_le_four hseq
          simp only [List.length_cons] at hl hn2
          interval_cases n
          · have h1 : cleanGo (b :: rest) 0 = b :: cleanGo rest 0 := by
              simp only [cleanGo]; rw [hseq]; try rfl
            have h2 := utf8SeqLen_one (Y := cleanGo rest 0) hseq
            have h3 : validGo (b :: cleanGo rest 0) 0
                = validGo (cleanGo rest 0) 0 := by
              simp only [validGo]; rw [h2]; try rfl
            rw [h1, h3]
            exact ih rest (by omega) 0 (Nat.zero_le _)
          · cases rest with
            | nil => simp at hn2
            | cons c1 rest2 =>
              have h1 : cleanGo (b :: c1 :: rest2) 0
                  = b :: c1 :: cleanGo rest2 0 := by
                simp only [cleanGo]; rw [hseq]; try rfl
              have h2 := utf8SeqLen_two (Y := cleanGo rest2 0) hseq
              have h3 : validGo (b :: c1 :: cleanGo rest2 0) 0
                  = validGo (cleanGo rest2 0) 0 := by
                simp only [validGo]; rw [h2]; try rfl
              rw [h1, h3]
              simp only [List.length_cons] at hl
              exact ih rest2 (by omega) 0 (Nat.zero_le _)
          · cases rest with
            | nil => simp at hn2
            | cons c1 rest2 =>
              cases rest2 with
              | nil => simp at hn2
              | cons c2 rest3 =>
                have h1 : cleanGo (b :: c1 :: c2 :: rest3) 0
                    = b :: c1 :: c2 :: cleanGo rest3 0 := by
                  simp only [cleanGo]; rw [hseq]; try rfl
                have h2 := utf8SeqLen_three (Y := cleanGo rest3 0) hseq
                have h3 : validGo (b :: c1 :: c2 :: cleanGo rest3 0) 0
                    = validGo (cleanGo rest3 0) 0 := by
                  simp only [validGo]; rw [h2]; try rfl
                rw [h1, h3]
                simp only [List.length_cons] at hl
                exact ih rest3 (by omega) 0 (Nat.zero_le _)
          · cases rest with
            | nil => simp at hn2
            | cons c1 rest2 =>
              cases rest2 with
              | nil => simp at hn2
              | cons c2 rest3 =>
                cases rest3 with
                | nil => simp at hn2
                | cons c3 rest4 =>
                  have h1 : cleanGo (b :: c1 :: c2 :: c3 :: rest4) 0
                      = b :: c1 :: c2 :: c3 :: cleanGo rest4 0 := by
                    simp only [cleanGo]; rw [hseq]; try rfl
                  have h2 := utf8SeqLen_four (Y := cleanGo rest4 0) hseq
                  have h3 : validGo (b :: c1 :: c2 :: c3 :: cleanGo rest4 0) 0
                      = validGo (cleanGo rest4 0) 0 := by
                    simp only [validGo]; rw [h2]; try rfl
                  rw [h1, h3]
                  simp only [List.length_cons] at hl
                  exact ih rest4 (by omega) 0 (Nat.zero_le _)

/-- The sanitized label is valid UTF-8. -/
theorem validUTF8_cleanUTF8 (l : List Nat) : validUTF8 (cleanUTF8 l) = true :=
  validGo_cleanGo l.length l (le_refl _) 0 (Nat.zero_le _)

/-! ### Helper lemmas about the module functions -/

/-- `run` returns the module state it was given, in every branch. -/
theorem run_state_eq (env : RunEnv) (s : ModState) (pf : Option TskFileData) :
    (run env s pf).state = s := by
  cases pf with
  | none => rfl
  | some f =>
    simp only [run]
    repeat' (first | rfl | split)

/-! ### The claims -/

/-- C1: for every file whose `getSize()` is zero, `run` returns OK without
calling the matcher, without reading the file, without logging, and
without adding any blackboard attribute (lines 124-125). -/
theorem run_zero_size (env : RunEnv) (s : ModState) (f : TskFileData)
    (h : f.size = 0) :
    run env s (some f) = ⟨Status.OK, s, noEffects⟩ := by
  simp [run, h]

theorem run_zero_size_witness :
    fileZero.size = 0 ∧
      run testEnv testState (some fileZero) =
        ⟨Status.OK, testState, noEffects⟩ :=
  ⟨rfl, run_zero_size testEnv testState fileZero rfl⟩

/-- C2: `initialize` fails exactly when the magic database at
`MODULE_DIR/FileTypeSigModule/magic.mgc` does not exist or `magic_load`
fails on it, and returns OK otherwise (lines 85-107). -/
theorem moduleInit_fail_iff (env : InitEnv) (s : ModState) :
    ((moduleInit env s).status = Status.FAIL ↔
      (env.fileExists (magicFilePath env) = false ∨
        env.magicLoadResult (magicFilePath env) ≠ 0)) ∧
    ((moduleInit env s).status = Status.OK ↔
      (env.fileExists (magicFilePath env) = true ∧
        env.magicLoadResult (magicFilePath env) = 0)) := by
  simp only [moduleInit]
  split_ifs with h1 h2 <;> simp_all

/-- C7: the static magic handle is written only by `initialize`: `run`
and `finalize` return the module state unchanged, and `initialize` stores
the `magic_open` result in the handle whatever the prior state was. -/
theorem magicHandle_frame (ienv : InitEnv) (renv : RunEnv)
    (s1 s2 s3 : ModState) (pf : Option TskFileData) :
    (run renv s1 pf).state = s1 ∧
    (finalize s2).2 = s2 ∧
    (moduleInit ienv s3).state.magicHandle = ienv.magicOpenResult := by
  refine ⟨run_state_eq renv s1 pf, rfl, ?_⟩
  simp only [moduleInit]
  split_ifs <;> rfl

/-- C8: `run` on a NULL file pointer logs one error and returns FAIL
without reading, matching, or writing any attribute (lines 118-122). -/
theorem run_null_pointer (env : RunEnv) (s : ModState) :
    run env s none =
      ⟨Status.FAIL, s,
        ⟨["FileTypeSigModule: Passed NULL file pointer."], [], [], []⟩⟩ := rfl

/-- C10: `finalize` unconditionally returns OK and performs no cleanup:
the module state, in particular the magic handle, is returned unchanged
(lines 177-180). -/
theorem finalize_ok (s : ModState) : finalize s = (Status.OK, s) := rfl

/-- `initialize` returns OK or FAIL, a FAIL logs exactly one line, an OK
logs nothing. -/
theorem moduleInit_status_logs (env : InitEnv) (s : ModState) :
    ((moduleInit env s).status = Status.OK ∨
      (moduleInit env s).status = Status.FAIL) ∧
    ((moduleInit env s).status = Status.FAIL →
      (moduleInit env s).logs.length = 1) ∧
    ((moduleInit env s).status = Status.OK → (moduleInit env s).logs = []) := by
  simp only [moduleInit]
  split_ifs <;> simp

/-- `run` returns OK or FAIL, a FAIL logs exactly one line, an OK logs
nothing. -/
theorem run_status_logs (env : RunEnv) (s : ModState)
    (pf : Option TskFileData) :
    ((run env s pf).status = Status.OK ∨
      (run env s pf).status = Status.FAIL) ∧
    ((run env s pf).status = Status.FAIL →
      (run env s pf).effects.logs.length = 1) ∧
    ((run env s pf).status = Status.OK →
      (run env s pf).effects.logs = []) := by
  cases pf with
  | none => simp [run, noEffects]
  | some f =>
    simp only [run]
    repeat' (first | (solve | simp [noEffects]) | split)

/-- Every attribute `run` posts has a value of at most 1023 bytes. -/
theorem run_attr_length (env : RunEnv) (s : ModState)
    (pf : Option TskFileData) (a : TskBlackboardAttribute)
    (ha : a ∈ (run env s pf).effects.attrsAdded) :
    a.valueBytes.length ≤ 1023 := by
  cases pf with
  | none => simp [run, noEffects] at ha
  | some f =>
    rcases f with ⟨sz, rr, ar⟩
    by_cases hs : sz = 0
    · simp [run, hs, noEffects] at ha
    · rcases rr with ⟨n, d⟩ | m | m
      · by_cases hn : n ≤ 0
        · simp [run, hs, hn, noEffects] at ha
        · cases hm : env.magicBuffer (d.take n.toNat) with
          | none => simp [run, hs, hn, hm, noEffects] at ha
          | some label =>
            rcases ar with u | m | m
            · simp [run, hs, hn, hm, noEffects] at ha
              rw [ha]
              simp only [cleanUTF8_length, List.length_take]
              exact Nat.min_le_left _ _
            · simp [run, hs, hn, hm, noEffects] at ha
            · simp [run, hs, hn, hm, noEffects] at ha
      · simp [run, hs, noEffects] at ha
      · simp [run, hs, noEffects] at ha

/-- C3: for every non-empty file, on each failure path (the read throws
or returns a non-positive count, the matcher returns NULL, or the
blackboard write throws) `run` logs exactly one error, returns FAIL, and
adds no blackboard attribute (lines 134-147, 159-172). -/
theorem run_failure (env : RunEnv) (s : ModState) (f : TskFileData)
    (h0 : f.size ≠ 0) (h1 : failurePath env f = true) :
    (run env s (some f)).status = Status.FAIL ∧
    (run env s (some f)).effects.logs.length = 1 ∧
    (run env s (some f)).effects.attrsAdded = [] := by
  obtain ⟨sz, rr, ar⟩ := f
  rcases rr with ⟨n, d⟩ | m | m
  · simp only [failurePath] at h1
    by_cases hn : n ≤ 0
    · simp [run, noEffects, h0, hn]
    · simp only [if_neg hn] at h1
      cases hm : env.magicBuffer (d.take n.toNat) with
      | none => simp [run, noEffects, h0, hn, hm]
      | some label =>
        simp only [hm] at h1
        rcases ar with u | m | m
        · simp at h1
        · simp [run, noEffects, h0, hn, hm]
        · simp [run, noEffects, h0, hn, hm]
  · simp [run, noEffects, h0]
  · simp [run, noEffects, h0]

theorem run_failure_witness :
    fileMagicNull.size ≠ 0 ∧ failurePath testEnv fileMagicNull = true ∧
    ((run testEnv testState (some fileMagicNull)).status = Status.FAIL ∧
      (run testEnv testState (some fileMagicNull)).effects.logs.length = 1 ∧
      (run testEnv testState (some fileMagicNull)).effects.attrsAdded = []) :=
  ⟨by decide, by decide,
    run_failure testEnv testState fileMagicNull (by decide) (by decide)⟩

/-- C4: for every non-empty file where the read returns a positive count,
the matcher returns a label, and the blackboard write returns, `run`
attaches exactly one TSK_FILE_TYPE_SIG attribute whose value is the label
truncated to 1023 bytes and sanitized to valid UTF-8 text, and returns OK
(lines 141-157). -/
theorem run_success (env : RunEnv) (s : ModState) (f : TskFileData)
    (readLen : Int) (data label : List Nat)
    (h0 : f.size ≠ 0)
    (h1 : f.readResult = ExtResult.ok (readLen, data))
    (h2 : 0 < readLen)
    (h3 : env.magicBuffer (data.take readLen.toNat) = some label)
    (h4 : f.addAttrResult = ExtResult.ok ()) :
    (run env s (some f)).status = Status.OK ∧
    (run env s (some f)).effects.attrsAdded =
      [⟨TskAttrType.TSK_FILE_TYPE_SIG, MODULE_NAME, "",
        cleanUTF8 (label.take 1023)⟩] ∧
    validUTF8 (cleanUTF8 (label.take 1023)) = true := by
  have hn : ¬ readLen ≤ 0 := by omega
  refine ⟨?_, ?_, validUTF8_cleanUTF8 _⟩ <;>
    simp [run, h0, h1, h3, h4, hn]

theorem run_success_witness :
    fileGood.size ≠ 0 ∧
    fileGood.readResult = ExtResult.ok (3, [37, 80, 68]) ∧
    (0 : Int) < 3 ∧
    testEnv.magicBuffer ([37, 80, 68].take ((3 : Int)).toNat) =
      some [80, 200, 71] ∧
    fileGood.addAttrResult = ExtResult.ok () ∧
    ((run testEnv testState (some fileGood)).status = Status.OK ∧
      (run testEnv testState (some fileGood)).effects.attrsAdded =
        [⟨TskAttrType.TSK_FILE_TYPE_SIG, MODULE_NAME, "",
          cleanUTF8 ([80, 200, 71].take 1023)⟩] ∧
      validUTF8 (cleanUTF8 ([80, 200, 71].take 1023)) = true) :=
  ⟨by decide, rfl, by decide, by decide, rfl,
    run_success testEnv testState fileGood 3 [37, 80, 68] [80, 200, 71]
      (by decide) rfl (by decide) (by decide) rfl⟩

/-- C5: for a non-empty file, `run` issues exactly one read request, of
`FILE_BUFFER_SIZE` = 1024 bytes, and the matcher either is not called or
is called once with exactly `readLen` as length argument and the
`readLen`-byte buffer content (lines 129-141). -/
theorem run_read_request (env : RunEnv) (s : ModState) (f : TskFileData)
    (readLen : Int) (data : List Nat)
    (h0 : f.size ≠ 0)
    (h1 : f.readResult = ExtResult.ok (readLen, data))
    (h2 : readLen.toNat ≤ data.length) :
    (run env s (some f)).effects.readRequests = [FILE_BUFFER_SIZE] ∧
    ((run env s (some f)).effects.magicCalls = [] ∨
      (run env s (some f)).effects.magicCalls =
        [(data.take readLen.toNat, readLen)]) ∧
    (data.take readLen.toNat).length = readLen.toNat := by
  refine ⟨?_, ?_, by rw [List.length_take]; exact Nat.min_eq_left h2⟩
  · by_cases hn : readLen ≤ 0
    · simp [run, h0, h1, hn, noEffects]
    · cases hm : env.magicBuffer (data.take readLen.toNat) with
      | none => simp [run, h0, h1, hn, hm, noEffects]
      | some label =>
        cases ha : f.addAttrResult <;>
          simp [run, h0, h1, hn, hm, ha, noEffects]
  · by_cases hn : readLen ≤ 0
    · left; simp [run, h0, h1, hn, noEffects]
    · right
      cases hm : env.magicBuffer (data.take readLen.toNat) with
      | none => simp [run, h0, h1, hn, hm, noEffects]
      | some label =>
        cases ha : f.addAttrResult <;>
          simp [run, h0, h1, hn, hm, ha, noEffects]

theorem run_read_request_witness :
    fileGood.size ≠ 0 ∧
    fileGood.readResult = ExtResult.ok (3, [37, 80, 68]) ∧
    ((3 : Int)).toNat ≤ [37, 80, 68].length ∧
    ((run testEnv testState (some fileGood)).effects.readRequests =
        [FILE_BUFFER_SIZE] ∧
      ((run testEnv testState (some fileGood)).effects.magicCalls = [] ∨
        (run testEnv testState (some fileGood)).effects.magicCalls =
          [([37, 80, 68].take ((3 : Int)).toNat, 3)]) ∧
      ([37, 80, 68].take ((3 : Int)).toNat).length = ((3 : Int)).toNat) :=
  ⟨by decide, rfl, by decide,
    run_read_request testEnv testState fileGood 3 [37, 80, 68]
      (by decide) rfl (by decide)⟩

/-- C6: every `initialize` and `run` call returns OK or FAIL (never the
third host status code), a FAIL return is accompanied by exactly one
error log line, and an OK return logs nothing. -/
theorem status_binary (ienv : InitEnv) (renv : RunEnv) (s1 s2 : ModState)
    (pf : Option TskFileData) :
    ((moduleInit ienv s1).status = Status.OK ∨
      (moduleInit ienv s1).status = Status.FAIL) ∧
    ((moduleInit ienv s1).status = Status.FAIL →
      (moduleInit ienv s1).logs.length = 1) ∧
    ((moduleInit ienv s1).status = Status.OK →
      (moduleInit ienv s1).logs = []) ∧
    ((run renv s2 pf).status = Status.OK ∨
      (run renv s2 pf).status = Status.FAIL) ∧
    ((run renv s2 pf).status = Status.FAIL →
      (run renv s2 pf).effects.logs.length = 1) ∧
    ((run renv s2 pf).status = Status.OK →
      (run renv s2 pf).effects.logs = []) := by
  obtain ⟨a1, a2, a3⟩ := moduleInit_status_logs ienv s1
  obtain ⟨b1, b2, b3⟩ := run_status_logs renv s2 pf
  exact ⟨a1, a2, a3, b1, b2, b3⟩

theorem status_binary_witness :
    (((moduleInit initEnvMissing testState).status = Status.OK ∨
      (moduleInit initEnvMissing testState).status = Status.FAIL) ∧
    ((moduleInit initEnvMissing testState).status = Status.FAIL →
      (moduleInit initEnvMissing testState).logs.length = 1) ∧
    ((moduleInit initEnvMissing testState).status = Status.OK →
      (moduleInit initEnvMissing testState).logs = []) ∧
    ((run testEnv testState none).status = Status.OK ∨
      (run testEnv testState none).status = Status.FAIL) ∧
    ((run testEnv testState none).status = Status.FAIL →
      (run testEnv testState none).effects.logs.length = 1) ∧
    ((run testEnv testState none).status = Status.OK →
      (run testEnv testState none).effects.logs = [])) :=
  status_binary initEnvMissing testEnv testState testState none

/-- C9: every attribute value `run` writes fits the 1024-byte buffer with
its final NUL: at most 1023 bytes; the sanitized truncation of a NUL-free
label keeps its length `min 1023 (label length)`, stays NUL-free, and a
label longer than 1023 bytes is silently cut to exactly 1023 bytes
(lines 150-153). -/
theorem attr_value_bounded (env : RunEnv) (s : ModState)
    (pf : Option TskFileData) (a : TskBlackboardAttribute)
    (ha : a ∈ (run env s pf).effects.attrsAdded)
    (label : List Nat) (hz : 0 ∉ label) :
    a.valueBytes.length ≤ 1023 ∧
    (cleanUTF8 (label.take 1023)).length = min 1023 label.length ∧
    0 ∉ cleanUTF8 (label.take 1023) ∧
    (1023 < label.length → (cleanUTF8 (label.take 1023)).length = 1023) := by
  refine ⟨run_attr_length env s pf a ha, ?_, ?_, ?_⟩
  · rw [cleanUTF8_length, List.length_take]
  · exact cleanGo_not_mem_zero _ 0 fun hmem => hz (List.take_subset _ _ hmem)
  · intro hgt
    rw [cleanUTF8_length, List.length_take]
    exact Nat.min_eq_left (by omega)

theorem attr_value_bounded_witness :
    attrGood ∈ (run testEnv testState (some fileGood)).effects.attrsAdded ∧
    (0 : Nat) ∉ ([80, 200, 71] : List Nat) ∧
    (attrGood.valueBytes.length ≤ 1023 ∧
      (cleanUTF8 (([80, 200, 71] : List Nat).take 1023)).length =
        min 1023 ([80, 200, 71] : List Nat).length ∧
      0 ∉ cleanUTF8 (([80, 200, 71] : List Nat).take 1023) ∧
      (1023 < ([80, 200, 71] : List Nat).length →
        (cleanUTF8 (([80, 200, 71] : List Nat).take 1023)).length = 1023)) :=
  ⟨by decide, by decide,
    attr_value_bounded testEnv testState (some fileGood) attrGood (by decide)
      [80, 200, 71] (by decide)⟩

end FileTypeSig
